import Mathlib

/-!
Shallow embedding of `src/idc_with_vae_and_dcgan/training.py`.

The file models the training orchestrator `Training.training` (lines 147-327)
of the repository at two levels:

1. an event-trace model of the per-batch update protocol (lines 195-268):
   which `zero_grad`, forward, `backward` and optimizer `step` calls run, in
   which order, and what each does to parameter versions, gradient buffers and
   the autograd gradient-tracking mode;

2. a bookkeeping model of the epoch / split / batch loops (lines 158-327):
   the global and per-split iteration counters, the per-epoch loss
   accumulators and their end-of-split averages, the periodic image-grid
   captures on the fixed evaluation latent, and the final-epoch image-file
   exports with their `{index:03d}_gen.jpg` / `{index:03d}_real.jpg` names.

A separate small model covers the latent-construction tensor shapes of lines
217-223 (concatenation of the normalized VAE latent with `dI`, then the
reshape to the generator input layout), and the composite-loss arithmetic of
lines 117 and 255-259.  Real-valued quantities are modelled over `ℚ`.
-/

/-- The three trainable modules of the run: the VAE encoder, the generator
and the discriminator (`training.py` lines 149-156). -/
inductive NetModule where
  | enc
  | gen
  | dis
  deriving DecidableEq

/-- Tags for the forward passes of one batch of the per-batch protocol
(`training.py` lines 207, 218, 226, 230, 249). -/
inductive FwdTag where
  | disReal           -- line 207: `discriminator(real)`
  | encFwd            -- line 218: `vae_encoder.forward(combined_map)`
  | genFwd            -- line 226: `generator(vae_latent_embed_vector)`
  | disFakeDetached   -- line 230: `discriminator(fake.detach())`
  | disFakeAttached   -- line 249: `discriminator(fake)`, the non-detached re-feed
  deriving DecidableEq

/-- An observable action of the per-batch protocol.  `backward ms` records a
backward pass that writes gradient contributions into the buffers of the
modules in `ms`; `noGradBare` records the bare statement `torch.no_grad()`
of line 193, an expression that constructs a context manager without ever
entering it. -/
inductive Ev where
  | zeroGrad (m : NetModule)
  | fwd (t : FwdTag)
  | backward (ms : List NetModule)
  | step (m : NetModule)
  | noGradBare
  deriving DecidableEq

/-- Version counters for the parameter tensors of the three modules; an
optimizer step on a module bumps its counter, nothing else touches it. -/
structure Params where
  enc : Nat
  gen : Nat
  dis : Nat
  deriving DecidableEq

/-- Gradient buffers of the three modules.  Each buffer holds the list of
iteration indices whose backward passes contributed to it since it was last
zeroed. -/
structure Grads where
  enc : List Nat
  gen : List Nat
  dis : List Nat
  deriving DecidableEq

def Params.bump (p : Params) : NetModule → Params
  | NetModule.enc => ⟨p.enc + 1, p.gen, p.dis⟩
  | NetModule.gen => ⟨p.enc, p.gen + 1, p.dis⟩
  | NetModule.dis => ⟨p.enc, p.gen, p.dis + 1⟩

def Grads.zeroOf (g : Grads) : NetModule → Grads
  | NetModule.enc => ⟨[], g.gen, g.dis⟩
  | NetModule.gen => ⟨g.enc, [], g.dis⟩
  | NetModule.dis => ⟨g.enc, g.gen, []⟩

def Grads.tagsOf (g : Grads) : NetModule → List Nat
  | NetModule.enc => g.enc
  | NetModule.gen => g.gen
  | NetModule.dis => g.dis

/-- A backward pass at iteration `k` appends the tag `k` to the buffer of
every module it reaches. -/
def Grads.addTag (g : Grads) (ms : List NetModule) (k : Nat) : Grads :=
  ⟨if ms.contains NetModule.enc then g.enc ++ [k] else g.enc,
   if ms.contains NetModule.gen then g.gen ++ [k] else g.gen,
   if ms.contains NetModule.dis then g.dis ++ [k] else g.dis⟩

/-- Record of one optimizer step: which module was updated, the gradient
tags its step consumed, and the iteration at which it ran. -/
structure StepRead where
  m : NetModule
  tags : List Nat
  iter : Nat
  deriving DecidableEq

/-- Record of one forward pass, together with the autograd gradient-tracking
mode in force when it executed. -/
structure FwdRec where
  tag : FwdTag
  tracked : Bool
  deriving DecidableEq

/-- Machine state threaded through the per-batch protocol events. -/
structure MState where
  params : Params
  grads : Grads
  stepLog : List StepRead
  fwdLog : List FwdRec
  gradMode : Bool
  deriving DecidableEq

/-- Effect of one event at iteration `k`.  Note that `noGradBare` leaves the
state unchanged: in Python, `torch.no_grad()` used as a bare expression
statement builds a context manager that is discarded without being entered,
so the gradient-tracking mode is not altered. -/
def exec (k : Nat) (s : MState) : Ev → MState
  | Ev.zeroGrad m => ⟨s.params, s.grads.zeroOf m, s.stepLog, s.fwdLog, s.gradMode⟩
  | Ev.fwd t => ⟨s.params, s.grads, s.stepLog, s.fwdLog ++ [⟨t, s.gradMode⟩], s.gradMode⟩
  | Ev.backward ms => ⟨s.params, s.grads.addTag ms k, s.stepLog, s.fwdLog, s.gradMode⟩
  | Ev.step m =>
      ⟨s.params.bump m, s.grads, s.stepLog ++ [⟨m, s.grads.tagsOf m, k⟩], s.fwdLog, s.gradMode⟩
  | Ev.noGradBare => s

def runEvents (k : Nat) (l : List Ev) (s : MState) : MState :=
  l.foldl (exec k) s

/-- The event sequence of one train-phase batch, transcribed from
`training.py` lines 201-268.  The backward pass of line 263 reaches the
discriminator (through the non-detached `discriminator(fake)` of line 249),
the generator, and the encoder (through the latent path of lines 218-226);
the backward passes of lines 212 and 235 reach only the discriminator (the
fake batch is detached at line 230). -/
def trainBatchEvents : List Ev :=
  [Ev.zeroGrad NetModule.dis,                          -- line 201
   Ev.fwd FwdTag.disReal,                        -- line 207
   Ev.backward [NetModule.dis],                        -- line 212: dis_error_real.backward()
   Ev.fwd FwdTag.encFwd,                         -- line 218
   Ev.fwd FwdTag.genFwd,                         -- line 226
   Ev.fwd FwdTag.disFakeDetached,                -- line 230
   Ev.backward [NetModule.dis],                        -- line 235: dis_error_fake.backward()
   Ev.step NetModule.dis,                              -- line 241: dis_optimizer.step()
   Ev.zeroGrad NetModule.gen,                          -- line 246
   Ev.fwd FwdTag.disFakeAttached,                -- line 249
   Ev.backward [NetModule.dis, NetModule.gen, NetModule.enc],      -- line 263: total_error.backward()
   Ev.step NetModule.gen,                              -- line 265: gen_optimizer.step()
   Ev.step NetModule.enc]                              -- line 268: vae_optimizer.step()

/-- The event sequence of one validation-phase batch: the same lines
201-268, but every `backward` and every optimizer `step` is guarded by
`if mode == "train"` and therefore absent. -/
def valBatchEvents : List Ev :=
  [Ev.zeroGrad NetModule.dis,                          -- line 201
   Ev.fwd FwdTag.disReal,                        -- line 207
   Ev.fwd FwdTag.encFwd,                         -- line 218
   Ev.fwd FwdTag.genFwd,                         -- line 226
   Ev.fwd FwdTag.disFakeDetached,                -- line 230
   Ev.zeroGrad NetModule.gen,                          -- line 246
   Ev.fwd FwdTag.disFakeAttached]                -- line 249

/-- Concatenation of `n` validation batch bodies, in order. -/
def valPhaseBatches : Nat → List Ev
  | 0 => []
  | n + 1 => valPhaseBatches n ++ valBatchEvents

/-- A validation-only pass over `n` batches: the bare `torch.no_grad()` of
line 193 runs once when the mode switches to `"val"`, then the batch loop. -/
def valPhaseEvents (n : Nat) : List Ev :=
  Ev.noGradBare :: valPhaseBatches n

/-- The forward records produced by one validation batch when the
gradient-tracking mode is `tracked`. -/
def valBatchFwdRecs (tracked : Bool) : List FwdRec :=
  [⟨FwdTag.disReal, tracked⟩, ⟨FwdTag.encFwd, tracked⟩, ⟨FwdTag.genFwd, tracked⟩,
   ⟨FwdTag.disFakeDetached, tracked⟩, ⟨FwdTag.disFakeAttached, tracked⟩]

/-- The forward records produced by `n` validation batches. -/
def valPhaseFwdRecs (tracked : Bool) : Nat → List FwdRec
  | 0 => []
  | n + 1 => valPhaseFwdRecs tracked n ++ valBatchFwdRecs tracked

/-- Initial machine state: fresh parameters, empty gradient buffers, empty
logs, and gradient tracking enabled (the PyTorch default, which is in force
when `Training.training` starts). -/
def initMState : MState :=
  ⟨⟨0, 0, 0⟩, ⟨[], [], []⟩, [], [], true⟩

/-- One train-phase iteration with global index `k`. -/
def runIter (k : Nat) (s : MState) : MState :=
  runEvents k trainBatchEvents s

/-- The first `n` train-phase iterations, from the initial state. -/
def trainRun : Nat → MState
  | 0 => initMState
  | n + 1 => runIter n (trainRun n)

/-- The scaling hyperparameter of the distributional-similarity term,
`self.vae_loss_scaling_factor = 0.01`, set once in `Training.__init__`
(line 117) and never reassigned. -/
def vae_loss_scaling_factor : ℚ := 1 / 100

/-- The composite loss of line 259:
`total_error = gen_error + (- self.vae_loss_scaling_factor * vae_error)`.
Lines 246-259 run unconditionally, so this value is computed for every
batch of both phases. -/
def total_error (gen_error vae_error : ℚ) : ℚ :=
  gen_error + (-vae_loss_scaling_factor * vae_error)

/-- Shape of a rank-2 tensor `(rows, cols)`; `vae_latent_embedding` after
line 219 has shape `(b_size, latent_dims)` and `di` after line 220 has shape
`(b_size, dI feature dims)`. -/
structure Shape2 where
  rows : Nat
  cols : Nat
  deriving DecidableEq

/-- Shape of a rank-4 tensor, the generator input layout of line 223. -/
structure Shape4 where
  n : Nat
  c : Nat
  h : Nat
  w : Nat
  deriving DecidableEq

/-- Outcome of the latent-construction pipeline of lines 217-223: a fatal
shape error at the concatenation, a fatal shape error at the reshape, or a
successfully shaped generator input. -/
inductive LatentOutcome where
  | catFail
  | reshapeFail
  | ok (s : Shape4)
  deriving DecidableEq

/-- `nn.functional.normalize` (line 219) preserves the tensor shape. -/
def normalizeShape (t : Shape2) : Shape2 := t

/-- Shape semantics of `torch.cat((a, b), dim=1)` (line 221): it succeeds
whenever the non-concatenated dimension agrees, whatever the two widths are,
and produces the summed width. -/
def catDim1 (a b : Shape2) : Option Shape2 :=
  if a.rows = b.rows then some ⟨a.rows, a.cols + b.cols⟩ else none

/-- Shape semantics of `torch.reshape(t, (n, c, h, w))` (lines 222-223): it
succeeds exactly when the element counts agree, and raises a fatal shape
error otherwise.  No truncation ever happens. -/
def reshapeTo4 (t : Shape2) (s : Shape4) : Option Shape4 :=
  if t.rows * t.cols = s.n * s.c * s.h * s.w then some s else none

/-- The latent-construction pipeline of lines 217-223 on shapes: normalize
the encoder latent `(bSize, latentDims)`, concatenate `di = (bSize, diDims)`
along `dim=1`, then reshape to `(bSize, totalLatentDims, 1, 1)`. -/
def latentPipeline (bSize latentDims diDims totalLatentDims : Nat) : LatentOutcome :=
  match catDim1 (normalizeShape ⟨bSize, latentDims⟩) ⟨bSize, diDims⟩ with
  | none => LatentOutcome.catFail
  | some cat =>
    match reshapeTo4 cat ⟨bSize, totalLatentDims, 1, 1⟩ with
    | none => LatentOutcome.reshapeFail
    | some s => LatentOutcome.ok s

/-- The two dataset splits; `Split.train` and `Split.val` also stand for the
two export directories `train_imgs` and `val_imgs` (lines 176-177). -/
inductive Split where
  | train
  | val
  deriving DecidableEq

/-- One capture of the generator output on an evaluation latent, appended to
`img_list` (line 296) or `val_img_list` (line 314); `latent` records which
latent tensor was fed to the generator. -/
structure GridEvent where
  latent : Nat
  deriving DecidableEq

/-- One exported image pair (lines 286-289 / 305-308): the split whose
directory receives the files, the epoch during which the write happened, the
numeric filename index, and the two filenames. -/
structure ExportEvent where
  split : Split
  epoch : Nat
  index : Nat
  fileGen : String
  fileReal : String
  deriving DecidableEq

/-- Python `f"{n:03d}"` for a natural number: decimal digits, left-padded
with zeros to width 3 (wider numbers are printed in full). -/
def pad3 (n : Nat) : String :=
  if n < 10 then "00" ++ toString n
  else if n < 100 then "0" ++ toString n
  else toString n

/-- Filename of a generated image, `f"{idx:03d}_gen.jpg"` (lines 287/306). -/
def genFileName (idx : Nat) : String := pad3 idx ++ "_gen.jpg"

/-- Filename of the paired real image, `f"{idx:03d}_real.jpg"` (lines 289/308). -/
def realFileName (idx : Nat) : String := pad3 idx ++ "_real.jpg"

/-- The export loop of lines 285-290 (train) / 304-309 (val) for one batch:
`t` is the per-split iteration counter (`train_iters` / `val_iters`) at the
start of the batch, `bSize` the configured `self.batch_size`, and `n` the
number of records in the batch (`len(fake)`); sample `i` of the batch gets
filename index `t * bSize + i`. -/
def exportBatch (sp : Split) (bSize t epoch n : Nat) : List ExportEvent :=
  (List.range n).map (fun i =>
    ⟨sp, epoch, t * bSize + i, genFileName (t * bSize + i), realFileName (t * bSize + i)⟩)

/-- Configuration and external collaborators of one training run: the epoch
count, the configured batch size (`self.batch_size = 16`, line 131), the
per-batch record counts delivered by the two dataloaders, the random stream
behind `torch.randn` (successive draws indexed by a counter), and oracles
giving the scalar values `gen_error.item()` and `dis_error.item()` that the
black-box modules produce for each (split, epoch, batch index).  The spec
treats the modules and the batch source as external collaborators, so their
numeric outputs are inputs of the model. -/
structure Config where
  nEpochs : Nat
  batchSize : Nat
  trainSizes : List Nat
  valSizes : List Nat
  noise : Nat → Nat
  genErr : Split → Nat → Nat → ℚ
  disErr : Split → Nat → Nat → ℚ

/-- Cross-iteration bookkeeping state of `Training.training`: the six result
lists (lines 167-172), the three iteration counters (line 173), the exported
image pairs, and the number of `torch.randn` draws made so far. -/
structure RunState where
  imgList : List GridEvent
  valImgList : List GridEvent
  genLosses : List ℚ
  disLosses : List ℚ
  valGenLosses : List ℚ
  valDisLosses : List ℚ
  iters : Nat
  trainIters : Nat
  valIters : Nat
  exports : List ExportEvent
  rngDraws : Nat

/-- Per-epoch loss accumulators and batch counters, reset to zero at the top
of every epoch (line 186). -/
structure EpochAcc where
  genLoss : ℚ
  disLoss : ℚ
  valGenLoss : ℚ
  valDisLoss : ℚ
  trainBatches : Nat
  valBatches : Nat

/-- One train-phase batch of the bookkeeping loop (lines 278-296 and 316),
for batch index `iBatch` holding `bsz` records.  On the final epoch the
export loop of lines 285-290 runs and rebinds the Python loop variable `i`
to its last value `bsz - 1`, so the `i == len(train_dataloader) - 1` test of
line 293 afterwards compares `bsz - 1`, not the batch index, with the batch
count. -/
def processTrainBatch (cfg : Config) (fixedNoise epoch iBatch bsz : Nat)
    (sa : RunState × EpochAcc) : RunState × EpochAcc :=
  let s := sa.1
  let a := sa.2
  let newExports : List ExportEvent :=
    if epoch = cfg.nEpochs - 1 then
      exportBatch Split.train cfg.batchSize s.trainIters epoch bsz
    else []
  let iVar : Nat := if epoch = cfg.nEpochs - 1 ∧ 0 < bsz then bsz - 1 else iBatch
  let newGrids : List GridEvent :=
    if s.iters % 500 = 0 ∨ (epoch = cfg.nEpochs - 1 ∧ iVar = cfg.trainSizes.length - 1) then
      [⟨fixedNoise⟩]
    else []
  (⟨s.imgList ++ newGrids, s.valImgList, s.genLosses, s.disLosses, s.valGenLosses,
      s.valDisLosses, s.iters + 1,
      (if epoch = cfg.nEpochs - 1 then s.trainIters + 1 else s.trainIters), s.valIters,
      s.exports ++ newExports, s.rngDraws⟩,
   ⟨a.genLoss + cfg.genErr Split.train epoch iBatch,
      a.disLoss + cfg.disErr Split.train epoch iBatch,
      a.valGenLoss, a.valDisLoss, a.trainBatches + 1, a.valBatches⟩)

/-- One validation-phase batch of the bookkeeping loop (lines 297-314 and
316); same structure as the train phase, with the validation counters, the
validation grid history, and `len(loader) = len(val_dataloader)` in the
line 312 test. -/
def processValBatch (cfg : Config) (fixedNoise epoch iBatch bsz : Nat)
    (sa : RunState × EpochAcc) : RunState × EpochAcc :=
  let s := sa.1
  let a := sa.2
  let newExports : List ExportEvent :=
    if epoch = cfg.nEpochs - 1 then
      exportBatch Split.val cfg.batchSize s.valIters epoch bsz
    else []
  let iVar : Nat := if epoch = cfg.nEpochs - 1 ∧ 0 < bsz then bsz - 1 else iBatch
  let newGrids : List GridEvent :=
    if s.iters % 500 = 0 ∨ (epoch = cfg.nEpochs - 1 ∧ iVar = cfg.valSizes.length - 1) then
      [⟨fixedNoise⟩]
    else []
  (⟨s.imgList, s.valImgList ++ newGrids, s.genLosses, s.disLosses, s.valGenLosses,
      s.valDisLosses, s.iters + 1, s.trainIters,
      (if epoch = cfg.nEpochs - 1 then s.valIters + 1 else s.valIters),
      s.exports ++ newExports, s.rngDraws⟩,
   ⟨a.genLoss, a.disLoss,
      a.valGenLoss + cfg.genErr Split.val epoch iBatch,
      a.valDisLoss + cfg.disErr Split.val epoch iBatch,
      a.trainBatches, a.valBatches + 1⟩)

/-- The train-phase batch loop `for i, data in enumerate(loader, 0)` of line
195: `iBatch` is the enumeration counter, `sizes` the record counts of the
remaining batches. -/
def runTrainBatches (cfg : Config) (fixedNoise epoch : Nat) :
    Nat → List Nat → RunState × EpochAcc → RunState × EpochAcc
  | _, [], sa => sa
  | iBatch, bsz :: rest, sa =>
      runTrainBatches cfg fixedNoise epoch (iBatch + 1) rest
        (processTrainBatch cfg fixedNoise epoch iBatch bsz sa)

/-- The validation-phase batch loop of line 195 for `mode == "val"`. -/
def runValBatches (cfg : Config) (fixedNoise epoch : Nat) :
    Nat → List Nat → RunState × EpochAcc → RunState × EpochAcc
  | _, [], sa => sa
  | iBatch, bsz :: rest, sa =>
      runValBatches cfg fixedNoise epoch (iBatch + 1) rest
        (processValBatch cfg fixedNoise epoch iBatch bsz sa)

/-- End of the train split (lines 318-321): append the running-average
train losses of the epoch to the two train histories.  `ℚ` division is
total; the source would raise `ZeroDivisionError` on an empty split, which
is why the claims assume non-empty splits. -/
def appendTrainAvgs (sa : RunState × EpochAcc) : RunState × EpochAcc :=
  ({ sa.1 with
      genLosses := sa.1.genLosses ++ [sa.2.genLoss / (sa.2.trainBatches : ℚ)],
      disLosses := sa.1.disLosses ++ [sa.2.disLoss / (sa.2.trainBatches : ℚ)] }, sa.2)

/-- End of the validation split (lines 322-325): append the running-average
validation losses of the epoch to the two validation histories. -/
def appendValAvgs (sa : RunState × EpochAcc) : RunState :=
  { sa.1 with
    valGenLosses := sa.1.valGenLosses ++ [sa.2.valGenLoss / (sa.2.valBatches : ℚ)],
    valDisLosses := sa.1.valDisLosses ++ [sa.2.valDisLoss / (sa.2.valBatches : ℚ)] }

/-- One epoch of `Training.training` (lines 185-325): reset the per-epoch
accumulators (line 186), run the train phase and append its averages, then
run the validation phase and append its averages. -/
def processEpoch (cfg : Config) (fixedNoise epoch : Nat) (s : RunState) : RunState :=
  appendValAvgs
    (runValBatches cfg fixedNoise epoch 0 cfg.valSizes
      (appendTrainAvgs (runTrainBatches cfg fixedNoise epoch 0 cfg.trainSizes
        (s, ⟨0, 0, 0, 0, 0, 0⟩))))

/-- State at the start of the epoch loop: empty histories, zero counters,
empty export directories (recreated at lines 178-181), and exactly one
`torch.randn` draw so far — the fixed evaluation latent of line 158. -/
def initRunState : RunState :=
  ⟨[], [], [], [], [], [], 0, 0, 0, [], 1⟩

/-- The epoch loop `for epoch in range(self.n_epochs)` (line 185): process
epochs `0, 1, ..., n-1` in order. -/
def epochFold (cfg : Config) : Nat → RunState
  | 0 => initRunState
  | n + 1 => processEpoch cfg (cfg.noise 0) n (epochFold cfg n)

/-- Final bookkeeping state of `Training.training`; `cfg.noise 0` is the
fixed evaluation latent sampled at line 158, before the epoch loop. -/
def trainingState (cfg : Config) : RunState :=
  epochFold cfg cfg.nEpochs

/-- The value returned by `Training.training` (line 327):
`img_list, val_img_list, gen_losses, dis_losses, val_gen_losses,
val_dis_losses`. -/
def training (cfg : Config) :
    List GridEvent × List GridEvent × List ℚ × List ℚ × List ℚ × List ℚ :=
  ((trainingState cfg).imgList, (trainingState cfg).valImgList,
   (trainingState cfg).genLosses, (trainingState cfg).disLosses,
   (trainingState cfg).valGenLosses, (trainingState cfg).valDisLosses)

/-- Oracle returning zero for every batch, for concrete runs. -/
def zeroErr : Split → Nat → Nat → ℚ := fun _ _ _ => 0

/-- Concrete run: one epoch, two full train batches of 16 records, one
validation batch of one record. -/
def cfgTwoBatches : Config :=
  ⟨1, 16, [16, 16], [1], fun _ => 0, zeroErr, zeroErr⟩

/-- Concrete run: one epoch, three train batches of 3 records each, one
validation batch of one record. -/
def cfgThreeSmallBatches : Config :=
  ⟨1, 16, [3, 3, 3], [1], fun _ => 0, zeroErr, zeroErr⟩

/-- Sum of `f i + f (i+1) + ... + f (i+n-1)`: the running loss sum a split
accumulates over its `n` batches (lines 279-280 / 298-299). -/
def lossSumFrom (f : Nat → ℚ) (i : Nat) : Nat → ℚ
  | 0 => 0
  | n + 1 => f i + lossSumFrom f (i + 1) n

/-- Running loss sum of a split divided by its batch count, the value
appended to a loss history at the end of the split (lines 318-325). -/
def avgOf (f : Nat → ℚ) (n : Nat) : ℚ :=
  lossSumFrom f 0 n / (n : ℚ)

/-- The export stream one split produces during the final epoch: batch after
batch, each batch of `b` records contributing `exportBatch` events while the
per-split iteration counter advances from `t`. -/
def splitExports (sp : Split) (bSize t epoch : Nat) : List Nat → List ExportEvent
  | [] => []
  | b :: rest => exportBatch sp bSize t epoch b ++ splitExports sp bSize (t + 1) epoch rest

/-- Invariant tying every captured image grid to the single pre-loop
`torch.randn` draw `fn`. -/
def GridsUseNoise (fn : Nat) (s : RunState) : Prop :=
  s.rngDraws = 1 ∧ (∀ g ∈ s.imgList, g.latent = fn) ∧ (∀ g ∈ s.valImgList, g.latent = fn)

/-- Concrete run with a recognizable noise draw: one epoch, one train batch
of one record, one validation batch of one record. -/
def cfgOneBatch : Config :=
  ⟨1, 16, [1], [1], fun _ => 42, zeroErr, zeroErr⟩

/-- Oracle returning 3 for every batch. -/
def threeErr : Split → Nat → Nat → ℚ := fun _ _ _ => 3

/-- Oracle returning 5 for every batch. -/
def fiveErr : Split → Nat → Nat → ℚ := fun _ _ _ => 5

/-- Concrete run with non-trivial loss values: one epoch, one batch per
split. -/
def cfgLossDemo : Config :=
  ⟨1, 16, [1], [1], fun _ => 0, threeErr, fiveErr⟩

/-- Concrete run for the export characterization: one epoch, train batches
of 2 and 1 records with configured batch size 2, one validation batch. -/
def cfgExportDemo : Config :=
  ⟨1, 2, [2, 1], [1], fun _ => 0, zeroErr, zeroErr⟩

/-- The grid-capture condition as the claim states it, for the train split:
capture exactly when the global iteration counter is a multiple of 500 or
the current batch (index `iBatch`, out of `nBatches`) is the final batch of
the final epoch.  This definition follows the words of the claim, for
comparison with the behaviour transcribed from the source. -/
def claimedGridCapture (nEpochs nBatches epoch iBatch iters : Nat) : Prop :=
  iters % 500 = 0 ∨ (epoch = nEpochs - 1 ∧ iBatch = nBatches - 1)

/-- Claim C2: in every train-phase batch iteration (each executes the event
sequence `trainBatchEvents`), the discriminator optimizer step (line 241)
occurs strictly before the generator-loss forward pass that re-feeds the
same non-detached fake batch through the discriminator (line 249), and the
encoder optimizer step (line 268) occurs strictly after the backward pass on
the composite loss (line 263). -/
theorem dis_step_before_attached_forward_enc_step_after_backward :
    Ev.step NetModule.dis ∈ trainBatchEvents ∧
    Ev.fwd FwdTag.disFakeAttached ∈ trainBatchEvents ∧
    Ev.backward [NetModule.dis, NetModule.gen, NetModule.enc] ∈ trainBatchEvents ∧
    Ev.step NetModule.enc ∈ trainBatchEvents ∧
    trainBatchEvents.indexOf (Ev.step NetModule.dis) <
      trainBatchEvents.indexOf (Ev.fwd FwdTag.disFakeAttached) ∧
    trainBatchEvents.indexOf (Ev.backward [NetModule.dis, NetModule.gen, NetModule.enc]) <
      trainBatchEvents.indexOf (Ev.step NetModule.enc) := by
  decide

/-- Claim C3: the composite generator loss of line 259 equals the
adversarial generator loss minus the scaling hyperparameter times the
distributional-similarity loss, and the scaling hyperparameter is the
constant `0.01` of line 117. -/
theorem composite_loss_is_gen_minus_scaled_vae (g v : ℚ) :
    total_error g v = g - vae_loss_scaling_factor * v ∧ vae_loss_scaling_factor = 1 / 100 := by
  constructor
  · show g + (-vae_loss_scaling_factor * v) = g - vae_loss_scaling_factor * v
    ring
  · rfl

/-- Claim C4, counterexample: after two train iterations, the encoder
optimizer step of iteration 1 reads a gradient buffer holding the
contributions of both iterations 0 and 1 — the protocol never zeroes the
encoder gradients (`vae_encoder.zero_grad()` is absent from lines 195-268),
so the claimed discipline fails for the encoder. -/
theorem encoder_step_reads_stale_gradient_contributions :
    (¬ ∀ e ∈ (trainRun 2).stepLog, ∀ t ∈ e.tags, t = e.iter) ∧
    Ev.zeroGrad NetModule.enc ∉ trainBatchEvents ∧
    (⟨NetModule.enc, [0, 1], 1⟩ : StepRead) ∈ (trainRun 2).stepLog := by
  decide

/-- Claim C5, code behaviour at the failing inputs.  In `cfgTwoBatches` the
final train batch of the final epoch (batch index 1, global iteration 1, not
a multiple of 500) satisfies the claimed capture condition, yet the run
captures only the single iteration-0 grid, because the line 293 test reads
the loop variable `i` rebound by the export loop of lines 285-290 to
`b_size - 1 = 15`, which differs from `len(train_dataloader) - 1 = 1`.  In
`cfgThreeSmallBatches` the run captures three grids although only two batch
positions (iteration 0 and the final batch) satisfy the claimed condition:
the rebound `i = 2` equals `len(train_dataloader) - 1 = 2` on every batch of
the final epoch. -/
theorem grid_capture_reads_shadowed_loop_variable :
    (trainingState cfgTwoBatches).imgList.length = 1 ∧
    claimedGridCapture cfgTwoBatches.nEpochs cfgTwoBatches.trainSizes.length 0 1 1 ∧
    ¬ (1 % 500 = 0) ∧
    (trainingState cfgThreeSmallBatches).imgList.length = 3 ∧
    ¬ claimedGridCapture cfgThreeSmallBatches.nEpochs
        cfgThreeSmallBatches.trainSizes.length 0 1 1 := by
  refine ⟨by decide, Or.inr ⟨rfl, rfl⟩, by decide, by decide, ?_⟩
  intro h
  rcases h with h | ⟨_, h⟩
  · exact absurd h (by decide)
  · exact absurd h (by decide)

/-- Folding events distributes over list concatenation. -/
theorem runEvents_append (k : Nat) (l₁ l₂ : List Ev) (s : MState) :
    runEvents k (l₁ ++ l₂) s = runEvents k l₂ (runEvents k l₁ s) := by
  simp [runEvents, List.foldl_append]

/-- Effect of one validation batch body: the discriminator and generator
gradient buffers are zeroed (lines 201 and 246 run in both phases), the
encoder buffer, the parameters, and the step log are untouched, and five
forward passes are logged under the gradient-tracking mode in force. -/
theorem runEvents_valBatch (k : Nat) (s : MState) :
    runEvents k valBatchEvents s =
      ⟨s.params, ⟨s.grads.enc, [], []⟩, s.stepLog,
        s.fwdLog ++ valBatchFwdRecs s.gradMode, s.gradMode⟩ := by
  simp [runEvents, valBatchEvents, exec, Grads.zeroOf, valBatchFwdRecs]

/-- Effect of the validation batch loop on the machine state, by induction
over the batch count. -/
theorem runEvents_valPhaseBatches (k n : Nat) (s : MState) :
    (runEvents k (valPhaseBatches n) s).params = s.params ∧
    (runEvents k (valPhaseBatches n) s).stepLog = s.stepLog ∧
    (runEvents k (valPhaseBatches n) s).gradMode = s.gradMode ∧
    (runEvents k (valPhaseBatches n) s).fwdLog = s.fwdLog ++ valPhaseFwdRecs s.gradMode n := by
  induction n with
  | zero => simp [valPhaseBatches, valPhaseFwdRecs, runEvents]
  | succ n ih =>
      rw [valPhaseBatches, runEvents_append, runEvents_valBatch]
      refine ⟨ih.1, ih.2.1, ih.2.2.1, ?_⟩
      rw [valPhaseFwdRecs, ih.2.2.2, ih.2.2.1, List.append_assoc]

/-- Claim C1 (validation frame effect, lines 188-268): a validation-only
pass over any number of batches performs no optimizer step, so the parameter
version counters of all three modules are identical before and after the
pass — but the bare `torch.no_grad()` of line 193 never changes the
gradient-tracking mode, so every validation forward pass is logged under the
unchanged entry mode (which is `true`, gradients enabled, when training
precedes as in the source), contradicting the claimed gradient disabling. -/
theorem validation_pass_preserves_params_but_not_grad_mode (k n : Nat) (s : MState) :
    (runEvents k (valPhaseEvents n) s).params = s.params ∧
    (runEvents k (valPhaseEvents n) s).stepLog = s.stepLog ∧
    (runEvents k (valPhaseEvents n) s).gradMode = s.gradMode ∧
    (runEvents k (valPhaseEvents n) s).fwdLog = s.fwdLog ++ valPhaseFwdRecs s.gradMode n :=
  runEvents_valPhaseBatches k n s

/-- A backward pass reaching only the discriminator. -/
theorem addTag_disOnly (g : Grads) (k : Nat) :
    g.addTag [NetModule.dis] k = ⟨g.enc, g.gen, g.dis ++ [k]⟩ := rfl

/-- The composite-loss backward pass reaches all three modules. -/
theorem addTag_all (g : Grads) (k : Nat) :
    g.addTag [NetModule.dis, NetModule.gen, NetModule.enc] k =
      ⟨g.enc ++ [k], g.gen ++ [k], g.dis ++ [k]⟩ := rfl

/-- Optimizer-step reads of one train iteration: the discriminator step
consumes exactly the two current-iteration backward contributions (lines
212, 235), the generator step the single current contribution of line 263,
and the encoder step whatever its never-zeroed buffer already held plus the
current contribution. -/
theorem runIter_stepLog (k : Nat) (s : MState) :
    (runIter k s).stepLog =
      s.stepLog ++ [⟨NetModule.dis, [k, k], k⟩, ⟨NetModule.gen, [k], k⟩,
        ⟨NetModule.enc, s.grads.enc ++ [k], k⟩] := by
  simp [runIter, runEvents, trainBatchEvents, exec, Grads.zeroOf, addTag_disOnly, addTag_all,
    Grads.tagsOf]

/-- Claim C4, amended part: for the discriminator and the generator the
claimed discipline does hold — over any number of train iterations, every
optimizer step of those two modules reads only gradient contributions of its
own iteration, because lines 201 and 246 zero their buffers before the
backward passes their steps consume. -/
theorem dis_gen_steps_read_only_current_iteration (n : Nat) :
    ∀ e ∈ (trainRun n).stepLog, (e.m = NetModule.dis ∨ e.m = NetModule.gen) →
      ∀ t ∈ e.tags, t = e.iter := by
  induction n with
  | zero => simp [trainRun, initMState]
  | succ n ih =>
      intro e he hm
      rw [trainRun, runIter_stepLog] at he
      rcases List.mem_append.mp he with h | h
      · exact ih e h hm
      · simp only [List.mem_cons, List.not_mem_nil, or_false] at h
        rcases h with rfl | rfl | rfl
        · intro t ht
          simp only [List.mem_cons, List.not_mem_nil, or_false] at ht
          rcases ht with rfl | rfl <;> rfl
        · intro t ht
          simp only [List.mem_cons, List.not_mem_nil, or_false] at ht
          rcases ht with rfl
          rfl
        · simp at hm

/-- Witness for the amended C4 discipline at a concrete step read. -/
theorem dis_gen_steps_read_only_current_iteration_witness :
    (⟨NetModule.dis, [0, 0], 0⟩ : StepRead) ∈ (trainRun 1).stepLog ∧
    (∀ t ∈ (⟨NetModule.dis, [0, 0], 0⟩ : StepRead).tags,
      t = (⟨NetModule.dis, [0, 0], 0⟩ : StepRead).iter) :=
  ⟨by decide,
   dis_gen_steps_read_only_current_iteration 1 ⟨NetModule.dis, [0, 0], 0⟩ (by decide)
     (Or.inl rfl)⟩

/-- One train-phase batch preserves the grid-noise invariant: the only grid
it can append is the generator sample on the fixed latent (line 295), and it
draws no fresh noise. -/
theorem processTrainBatch_grids (cfg : Config) (fn epoch iBatch bsz : Nat)
    (sa : RunState × EpochAcc) (h : GridsUseNoise fn sa.1) :
    GridsUseNoise fn (processTrainBatch cfg fn epoch iBatch bsz sa).1 := by
  obtain ⟨h1, h2, h3⟩ := h
  refine ⟨h1, ?_, h3⟩
  intro g hg
  simp only [processTrainBatch] at hg
  rcases List.mem_append.mp hg with hg | hg
  · exact h2 g hg
  · simp at hg
    obtain ⟨-, rfl⟩ := hg
    rfl

/-- One validation-phase batch preserves the grid-noise invariant (line
313). -/
theorem processValBatch_grids (cfg : Config) (fn epoch iBatch bsz : Nat)
    (sa : RunState × EpochAcc) (h : GridsUseNoise fn sa.1) :
    GridsUseNoise fn (processValBatch cfg fn epoch iBatch bsz sa).1 := by
  obtain ⟨h1, h2, h3⟩ := h
  refine ⟨h1, h2, ?_⟩
  intro g hg
  simp only [processValBatch] at hg
  rcases List.mem_append.mp hg with hg | hg
  · exact h3 g hg
  · simp at hg
    obtain ⟨-, rfl⟩ := hg
    rfl

/-- The train-phase batch loop preserves the grid-noise invariant. -/
theorem runTrainBatches_grids (cfg : Config) (fn epoch : Nat) :
    ∀ (l : List Nat) (i : Nat) (sa : RunState × EpochAcc), GridsUseNoise fn sa.1 →
      GridsUseNoise fn (runTrainBatches cfg fn epoch i l sa).1
  | [], _, _, h => h
  | b :: rest, i, sa, h =>
      runTrainBatches_grids cfg fn epoch rest (i + 1) _
        (processTrainBatch_grids cfg fn epoch i b sa h)

/-- The validation-phase batch loop preserves the grid-noise invariant. -/
theorem runValBatches_grids (cfg : Config) (fn epoch : Nat) :
    ∀ (l : List Nat) (i : Nat) (sa : RunState × EpochAcc), GridsUseNoise fn sa.1 →
      GridsUseNoise fn (runValBatches cfg fn epoch i l sa).1
  | [], _, _, h => h
  | b :: rest, i, sa, h =>
      runValBatches_grids cfg fn epoch rest (i + 1) _
        (processValBatch_grids cfg fn epoch i b sa h)

/-- A whole epoch preserves the grid-noise invariant: the end-of-split
appends touch only the loss histories. -/
theorem appendTrainAvgs_grids (fn : Nat) (sa : RunState × EpochAcc)
    (h : GridsUseNoise fn sa.1) : GridsUseNoise fn (appendTrainAvgs sa).1 := h

/-- The end-of-validation append touches only loss histories. -/
theorem appendValAvgs_grids (fn : Nat) (sa : RunState × EpochAcc)
    (h : GridsUseNoise fn sa.1) : GridsUseNoise fn (appendValAvgs sa) := h

theorem processEpoch_grids (cfg : Config) (fn epoch : Nat) (s : RunState)
    (h : GridsUseNoise fn s) : GridsUseNoise fn (processEpoch cfg fn epoch s) :=
  appendValAvgs_grids fn _
    (runValBatches_grids cfg fn epoch cfg.valSizes 0 _
      (appendTrainAvgs_grids fn _
        (runTrainBatches_grids cfg fn epoch cfg.trainSizes 0 (s, ⟨0, 0, 0, 0, 0, 0⟩) h)))

/-- The epoch loop preserves the grid-noise invariant from the initial
state. -/
theorem epochFold_grids (cfg : Config) : ∀ n, GridsUseNoise (cfg.noise 0) (epochFold cfg n)
  | 0 => ⟨rfl, by simp [epochFold, initRunState], by simp [epochFold, initRunState]⟩
  | n + 1 => processEpoch_grids cfg (cfg.noise 0) n (epochFold cfg n) (epochFold_grids cfg n)

/-- Claim C6: the fixed evaluation latent is drawn from the random stream
exactly once per run, at line 158 before the epoch loop, and every grid
captured into either split history (lines 293-296 and 312-314) fed the
generator exactly that draw. -/
theorem fixed_noise_drawn_once_and_fed_to_every_grid (cfg : Config) :
    (trainingState cfg).rngDraws = 1 ∧
    (∀ g ∈ (trainingState cfg).imgList, g.latent = cfg.noise 0) ∧
    (∀ g ∈ (trainingState cfg).valImgList, g.latent = cfg.noise 0) :=
  epochFold_grids cfg cfg.nEpochs

/-- Witness for C6: in the one-batch run, the grid captured at global
iteration 0 holds the line 158 draw. -/
theorem fixed_noise_drawn_once_and_fed_to_every_grid_witness :
    (⟨42⟩ : GridEvent) ∈ (trainingState cfgOneBatch).imgList ∧
    (⟨42⟩ : GridEvent).latent = cfgOneBatch.noise 0 :=
  ⟨by decide, (fixed_noise_drawn_once_and_fed_to_every_grid cfgOneBatch).2.1 ⟨42⟩ (by decide)⟩


/-- Accumulator effect of the train-phase batch loop: the epoch generator
and discriminator sums grow by the oracle values of the processed batches,
the batch counter by the batch count, and the validation accumulators are
untouched. -/
theorem runTrainBatches_acc (cfg : Config) (fn epoch : Nat) :
    ∀ (l : List Nat) (i : Nat) (sa : RunState × EpochAcc),
    (runTrainBatches cfg fn epoch i l sa).2 =
      ⟨sa.2.genLoss + lossSumFrom (cfg.genErr Split.train epoch) i l.length,
       sa.2.disLoss + lossSumFrom (cfg.disErr Split.train epoch) i l.length,
       sa.2.valGenLoss, sa.2.valDisLoss, sa.2.trainBatches + l.length, sa.2.valBatches⟩
  | [], i, sa => by
      show sa.2 = _
      simp [lossSumFrom]
  | b :: rest, i, sa => by
      rw [runTrainBatches, runTrainBatches_acc cfg fn epoch rest (i + 1) _]
      simp only [processTrainBatch, List.length_cons, lossSumFrom]
      rw [EpochAcc.mk.injEq]
      refine ⟨by ring, by ring, rfl, rfl, by omega, rfl⟩

/-- Accumulator effect of the validation-phase batch loop. -/
theorem runValBatches_acc (cfg : Config) (fn epoch : Nat) :
    ∀ (l : List Nat) (i : Nat) (sa : RunState × EpochAcc),
    (runValBatches cfg fn epoch i l sa).2 =
      ⟨sa.2.genLoss, sa.2.disLoss,
       sa.2.valGenLoss + lossSumFrom (cfg.genErr Split.val epoch) i l.length,
       sa.2.valDisLoss + lossSumFrom (cfg.disErr Split.val epoch) i l.length,
       sa.2.trainBatches, sa.2.valBatches + l.length⟩
  | [], i, sa => by
      show sa.2 = _
      simp [lossSumFrom]
  | b :: rest, i, sa => by
      rw [runValBatches, runValBatches_acc cfg fn epoch rest (i + 1) _]
      simp only [processValBatch, List.length_cons, lossSumFrom]
      rw [EpochAcc.mk.injEq]
      refine ⟨rfl, rfl, by ring, by ring, rfl, by omega⟩

/-- The train-phase batch loop never touches the four loss histories. -/
theorem runTrainBatches_lossLists (cfg : Config) (fn epoch : Nat) :
    ∀ (l : List Nat) (i : Nat) (sa : RunState × EpochAcc),
    (runTrainBatches cfg fn epoch i l sa).1.genLosses = sa.1.genLosses ∧
    (runTrainBatches cfg fn epoch i l sa).1.disLosses = sa.1.disLosses ∧
    (runTrainBatches cfg fn epoch i l sa).1.valGenLosses = sa.1.valGenLosses ∧
    (runTrainBatches cfg fn epoch i l sa).1.valDisLosses = sa.1.valDisLosses
  | [], i, sa => ⟨rfl, rfl, rfl, rfl⟩
  | b :: rest, i, sa => by
      rw [runTrainBatches]
      have ih := runTrainBatches_lossLists cfg fn epoch rest (i + 1)
        (processTrainBatch cfg fn epoch i b sa)
      exact ⟨ih.1, ih.2.1, ih.2.2.1, ih.2.2.2⟩

/-- The validation-phase batch loop never touches the four loss histories. -/
theorem runValBatches_lossLists (cfg : Config) (fn epoch : Nat) :
    ∀ (l : List Nat) (i : Nat) (sa : RunState × EpochAcc),
    (runValBatches cfg fn epoch i l sa).1.genLosses = sa.1.genLosses ∧
    (runValBatches cfg fn epoch i l sa).1.disLosses = sa.1.disLosses ∧
    (runValBatches cfg fn epoch i l sa).1.valGenLosses = sa.1.valGenLosses ∧
    (runValBatches cfg fn epoch i l sa).1.valDisLosses = sa.1.valDisLosses
  | [], i, sa => ⟨rfl, rfl, rfl, rfl⟩
  | b :: rest, i, sa => by
      rw [runValBatches]
      have ih := runValBatches_lossLists cfg fn epoch rest (i + 1)
        (processValBatch cfg fn epoch i b sa)
      exact ⟨ih.1, ih.2.1, ih.2.2.1, ih.2.2.2⟩

/-- The end-of-train append keeps the epoch accumulators. -/
theorem appendTrainAvgs_snd (sa : RunState × EpochAcc) : (appendTrainAvgs sa).2 = sa.2 := rfl

/-- Line 320: the appended train generator entry is the running sum over the
count. -/
theorem appendTrainAvgs_genLosses (sa : RunState × EpochAcc) :
    (appendTrainAvgs sa).1.genLosses =
      sa.1.genLosses ++ [sa.2.genLoss / (sa.2.trainBatches : ℚ)] := rfl

/-- Line 321: the appended train discriminator entry. -/
theorem appendTrainAvgs_disLosses (sa : RunState × EpochAcc) :
    (appendTrainAvgs sa).1.disLosses =
      sa.1.disLosses ++ [sa.2.disLoss / (sa.2.trainBatches : ℚ)] := rfl

/-- The end-of-train append leaves the validation histories alone. -/
theorem appendTrainAvgs_valGenLosses (sa : RunState × EpochAcc) :
    (appendTrainAvgs sa).1.valGenLosses = sa.1.valGenLosses := rfl

/-- The end-of-train append leaves the validation histories alone. -/
theorem appendTrainAvgs_valDisLosses (sa : RunState × EpochAcc) :
    (appendTrainAvgs sa).1.valDisLosses = sa.1.valDisLosses := rfl

/-- The end-of-validation append leaves the train histories alone. -/
theorem appendValAvgs_genLosses (sa : RunState × EpochAcc) :
    (appendValAvgs sa).genLosses = sa.1.genLosses := rfl

/-- The end-of-validation append leaves the train histories alone. -/
theorem appendValAvgs_disLosses (sa : RunState × EpochAcc) :
    (appendValAvgs sa).disLosses = sa.1.disLosses := rfl

/-- Line 324: the appended validation generator entry. -/
theorem appendValAvgs_valGenLosses (sa : RunState × EpochAcc) :
    (appendValAvgs sa).valGenLosses =
      sa.1.valGenLosses ++ [sa.2.valGenLoss / (sa.2.valBatches : ℚ)] := rfl

/-- Line 325: the appended validation discriminator entry. -/
theorem appendValAvgs_valDisLosses (sa : RunState × EpochAcc) :
    (appendValAvgs sa).valDisLosses =
      sa.1.valDisLosses ++ [sa.2.valDisLoss / (sa.2.valBatches : ℚ)] := rfl

/-- One epoch appends exactly one entry, the split running-average of the
oracle losses, to each of the four histories. -/
theorem processEpoch_lossLists (cfg : Config) (fn epoch : Nat) (s : RunState) :
    (processEpoch cfg fn epoch s).genLosses =
      s.genLosses ++ [avgOf (cfg.genErr Split.train epoch) cfg.trainSizes.length] ∧
    (processEpoch cfg fn epoch s).disLosses =
      s.disLosses ++ [avgOf (cfg.disErr Split.train epoch) cfg.trainSizes.length] ∧
    (processEpoch cfg fn epoch s).valGenLosses =
      s.valGenLosses ++ [avgOf (cfg.genErr Split.val epoch) cfg.valSizes.length] ∧
    (processEpoch cfg fn epoch s).valDisLosses =
      s.valDisLosses ++ [avgOf (cfg.disErr Split.val epoch) cfg.valSizes.length] := by
  obtain ⟨tg, td, tvg, tvd⟩ :=
    runTrainBatches_lossLists cfg fn epoch cfg.trainSizes 0 (s, ⟨0, 0, 0, 0, 0, 0⟩)
  have hta := runTrainBatches_acc cfg fn epoch cfg.trainSizes 0 (s, ⟨0, 0, 0, 0, 0, 0⟩)
  obtain ⟨vg, vd, vvg, vvd⟩ :=
    runValBatches_lossLists cfg fn epoch cfg.valSizes 0
      (appendTrainAvgs (runTrainBatches cfg fn epoch 0 cfg.trainSizes (s, ⟨0, 0, 0, 0, 0, 0⟩)))
  have hva :=
    runValBatches_acc cfg fn epoch cfg.valSizes 0
      (appendTrainAvgs (runTrainBatches cfg fn epoch 0 cfg.trainSizes (s, ⟨0, 0, 0, 0, 0, 0⟩)))
  unfold processEpoch
  refine ⟨?_, ?_, ?_, ?_⟩
  · simp only [appendValAvgs_genLosses, vg, appendTrainAvgs_genLosses, tg,
      appendTrainAvgs_snd, hta]
    simp [avgOf]
  · simp only [appendValAvgs_disLosses, vd, appendTrainAvgs_disLosses, td,
      appendTrainAvgs_snd, hta]
    simp [avgOf]
  · simp only [appendValAvgs_valGenLosses, vvg, appendTrainAvgs_valGenLosses, tvg, hva,
      appendTrainAvgs_snd, hta]
    simp [avgOf]
  · simp only [appendValAvgs_valDisLosses, vvd, appendTrainAvgs_valDisLosses, tvd, hva,
      appendTrainAvgs_snd, hta]
    simp [avgOf]

/-- After `n` epochs each loss history holds exactly the `n` per-epoch
running averages, in epoch order. -/
theorem epochFold_lossLists (cfg : Config) : ∀ n : Nat,
    (epochFold cfg n).genLosses =
      (List.range n).map (fun e => avgOf (cfg.genErr Split.train e) cfg.trainSizes.length) ∧
    (epochFold cfg n).disLosses =
      (List.range n).map (fun e => avgOf (cfg.disErr Split.train e) cfg.trainSizes.length) ∧
    (epochFold cfg n).valGenLosses =
      (List.range n).map (fun e => avgOf (cfg.genErr Split.val e) cfg.valSizes.length) ∧
    (epochFold cfg n).valDisLosses =
      (List.range n).map (fun e => avgOf (cfg.disErr Split.val e) cfg.valSizes.length)
  | 0 => ⟨rfl, rfl, rfl, rfl⟩
  | n + 1 => by
      obtain ⟨h1, h2, h3, h4⟩ := epochFold_lossLists cfg n
      obtain ⟨p1, p2, p3, p4⟩ := processEpoch_lossLists cfg (cfg.noise 0) n (epochFold cfg n)
      rw [epochFold]
      refine ⟨?_, ?_, ?_, ?_⟩
      · simp [p1, h1, List.range_succ]
      · simp [p2, h2, List.range_succ]
      · simp [p3, h3, List.range_succ]
      · simp [p4, h4, List.range_succ]

/-- Claim C7: for a run with non-empty train and validation splits, the
entry point returns the six artifacts in the order (train grids, validation
grids, train generator losses, train discriminator losses, validation
generator losses, validation discriminator losses), and each loss history
holds exactly one entry per epoch, that split running loss sum of the epoch
divided by the split batch count (lines 318-327). -/
theorem training_returns_ordered_histories_of_epoch_averages (cfg : Config)
    (hT : cfg.trainSizes ≠ []) (hV : cfg.valSizes ≠ []) :
    training cfg =
      ((trainingState cfg).imgList, (trainingState cfg).valImgList,
       (List.range cfg.nEpochs).map
         (fun e => avgOf (cfg.genErr Split.train e) cfg.trainSizes.length),
       (List.range cfg.nEpochs).map
         (fun e => avgOf (cfg.disErr Split.train e) cfg.trainSizes.length),
       (List.range cfg.nEpochs).map
         (fun e => avgOf (cfg.genErr Split.val e) cfg.valSizes.length),
       (List.range cfg.nEpochs).map
         (fun e => avgOf (cfg.disErr Split.val e) cfg.valSizes.length)) := by
  obtain ⟨h1, h2, h3, h4⟩ := epochFold_lossLists cfg cfg.nEpochs
  unfold training trainingState
  rw [h1, h2, h3, h4]

/-- Witness for C7 on a concrete one-epoch run with constant oracle losses
3 and 5. -/
theorem training_returns_ordered_histories_witness :
    cfgLossDemo.trainSizes ≠ [] ∧ cfgLossDemo.valSizes ≠ [] ∧
    training cfgLossDemo =
      ((trainingState cfgLossDemo).imgList, (trainingState cfgLossDemo).valImgList,
       (List.range cfgLossDemo.nEpochs).map
         (fun e => avgOf (cfgLossDemo.genErr Split.train e) cfgLossDemo.trainSizes.length),
       (List.range cfgLossDemo.nEpochs).map
         (fun e => avgOf (cfgLossDemo.disErr Split.train e) cfgLossDemo.trainSizes.length),
       (List.range cfgLossDemo.nEpochs).map
         (fun e => avgOf (cfgLossDemo.genErr Split.val e) cfgLossDemo.valSizes.length),
       (List.range cfgLossDemo.nEpochs).map
         (fun e => avgOf (cfgLossDemo.disErr Split.val e) cfgLossDemo.valSizes.length)) :=
  ⟨by decide, by decide,
   training_returns_ordered_histories_of_epoch_averages cfgLossDemo (by decide) (by decide)⟩

/-- The end-of-split appends never touch exports or iteration counters. -/
theorem appendTrainAvgs_exports (sa : RunState × EpochAcc) :
    (appendTrainAvgs sa).1.exports = sa.1.exports := rfl

/-- The end-of-split appends never touch exports or iteration counters. -/
theorem appendTrainAvgs_trainIters (sa : RunState × EpochAcc) :
    (appendTrainAvgs sa).1.trainIters = sa.1.trainIters := rfl

/-- The end-of-split appends never touch exports or iteration counters. -/
theorem appendTrainAvgs_valIters (sa : RunState × EpochAcc) :
    (appendTrainAvgs sa).1.valIters = sa.1.valIters := rfl

/-- The end-of-split appends never touch exports or iteration counters. -/
theorem appendValAvgs_exports (sa : RunState × EpochAcc) :
    (appendValAvgs sa).exports = sa.1.exports := rfl

/-- The end-of-split appends never touch exports or iteration counters. -/
theorem appendValAvgs_trainIters (sa : RunState × EpochAcc) :
    (appendValAvgs sa).trainIters = sa.1.trainIters := rfl

/-- The end-of-split appends never touch exports or iteration counters. -/
theorem appendValAvgs_valIters (sa : RunState × EpochAcc) :
    (appendValAvgs sa).valIters = sa.1.valIters := rfl

/-- Outside the final epoch the train-phase loop exports nothing and leaves
the per-split counters alone (the lines 284-290 block is guarded by
`epoch == self.n_epochs - 1`). -/
theorem runTrainBatches_exports_nonfinal (cfg : Config) (fn epoch : Nat)
    (h : ¬ epoch = cfg.nEpochs - 1) :
    ∀ (l : List Nat) (i : Nat) (sa : RunState × EpochAcc),
    (runTrainBatches cfg fn epoch i l sa).1.exports = sa.1.exports ∧
    (runTrainBatches cfg fn epoch i l sa).1.trainIters = sa.1.trainIters ∧
    (runTrainBatches cfg fn epoch i l sa).1.valIters = sa.1.valIters
  | [], i, sa => ⟨rfl, rfl, rfl⟩
  | b :: rest, i, sa => by
      rw [runTrainBatches]
      have ih := runTrainBatches_exports_nonfinal cfg fn epoch h rest (i + 1)
        (processTrainBatch cfg fn epoch i b sa)
      refine ⟨?_, ?_, ih.2.2⟩
      · rw [ih.1]
        simp [processTrainBatch, h]
      · rw [ih.2.1]
        simp [processTrainBatch, h]

/-- Outside the final epoch the validation-phase loop exports nothing and
leaves the per-split counters alone (lines 303-309). -/
theorem runValBatches_exports_nonfinal (cfg : Config) (fn epoch : Nat)
    (h : ¬ epoch = cfg.nEpochs - 1) :
    ∀ (l : List Nat) (i : Nat) (sa : RunState × EpochAcc),
    (runValBatches cfg fn epoch i l sa).1.exports = sa.1.exports ∧
    (runValBatches cfg fn epoch i l sa).1.trainIters = sa.1.trainIters ∧
    (runValBatches cfg fn epoch i l sa).1.valIters = sa.1.valIters
  | [], i, sa => ⟨rfl, rfl, rfl⟩
  | b :: rest, i, sa => by
      rw [runValBatches]
      have ih := runValBatches_exports_nonfinal cfg fn epoch h rest (i + 1)
        (processValBatch cfg fn epoch i b sa)
      refine ⟨?_, ih.2.1, ?_⟩
      · rw [ih.1]
        simp [processValBatch, h]
      · rw [ih.2.2]
        simp [processValBatch, h]

/-- During the final epoch the train-phase loop appends exactly the
per-batch export stream, advancing the `train_iters` counter once per batch
(lines 284-290). -/
theorem runTrainBatches_exports_final (cfg : Config) (fn epoch : Nat)
    (h : epoch = cfg.nEpochs - 1) :
    ∀ (l : List Nat) (i : Nat) (sa : RunState × EpochAcc),
    (runTrainBatches cfg fn epoch i l sa).1.exports =
      sa.1.exports ++ splitExports Split.train cfg.batchSize sa.1.trainIters epoch l ∧
    (runTrainBatches cfg fn epoch i l sa).1.trainIters = sa.1.trainIters + l.length ∧
    (runTrainBatches cfg fn epoch i l sa).1.valIters = sa.1.valIters
  | [], i, sa => by
      refine ⟨?_, rfl, rfl⟩
      simp [runTrainBatches, splitExports]
  | b :: rest, i, sa => by
      rw [runTrainBatches]
      have ih := runTrainBatches_exports_final cfg fn epoch h rest (i + 1)
        (processTrainBatch cfg fn epoch i b sa)
      refine ⟨?_, ?_, ih.2.2⟩
      · rw [ih.1]
        simp [processTrainBatch, h, splitExports, List.append_assoc]
      · rw [ih.2.1]
        simp only [processTrainBatch, List.length_cons]
        simp [h]
        omega

/-- During the final epoch the validation-phase loop appends exactly the
per-batch export stream, advancing the `val_iters` counter once per batch
(lines 303-309). -/
theorem runValBatches_exports_final (cfg : Config) (fn epoch : Nat)
    (h : epoch = cfg.nEpochs - 1) :
    ∀ (l : List Nat) (i : Nat) (sa : RunState × EpochAcc),
    (runValBatches cfg fn epoch i l sa).1.exports =
      sa.1.exports ++ splitExports Split.val cfg.batchSize sa.1.valIters epoch l ∧
    (runValBatches cfg fn epoch i l sa).1.valIters = sa.1.valIters + l.length ∧
    (runValBatches cfg fn epoch i l sa).1.trainIters = sa.1.trainIters
  | [], i, sa => by
      refine ⟨?_, rfl, rfl⟩
      simp [runValBatches, splitExports]
  | b :: rest, i, sa => by
      rw [runValBatches]
      have ih := runValBatches_exports_final cfg fn epoch h rest (i + 1)
        (processValBatch cfg fn epoch i b sa)
      refine ⟨?_, ?_, ih.2.2⟩
      · rw [ih.1]
        simp [processValBatch, h, splitExports, List.append_assoc]
      · rw [ih.2.1]
        simp only [processValBatch, List.length_cons]
        simp [h]
        omega

/-- Epochs before the final one contribute nothing to the exports and leave
both per-split counters at their value. -/
theorem processEpoch_exports_nonfinal (cfg : Config) (fn epoch : Nat) (s : RunState)
    (h : ¬ epoch = cfg.nEpochs - 1) :
    (processEpoch cfg fn epoch s).exports = s.exports ∧
    (processEpoch cfg fn epoch s).trainIters = s.trainIters ∧
    (processEpoch cfg fn epoch s).valIters = s.valIters := by
  have ht := runTrainBatches_exports_nonfinal cfg fn epoch h cfg.trainSizes 0
    (s, ⟨0, 0, 0, 0, 0, 0⟩)
  have hv := runValBatches_exports_nonfinal cfg fn epoch h cfg.valSizes 0
    (appendTrainAvgs (runTrainBatches cfg fn epoch 0 cfg.trainSizes (s, ⟨0, 0, 0, 0, 0, 0⟩)))
  unfold processEpoch
  refine ⟨?_, ?_, ?_⟩
  · rw [appendValAvgs_exports, hv.1, appendTrainAvgs_exports, ht.1]
  · rw [appendValAvgs_trainIters, hv.2.1, appendTrainAvgs_trainIters, ht.2.1]
  · rw [appendValAvgs_valIters, hv.2.2, appendTrainAvgs_valIters, ht.2.2]

/-- Up to the final epoch nothing has been exported and both per-split
counters are still zero. -/
theorem epochFold_exports_prefinal (cfg : Config) : ∀ n : Nat, n ≤ cfg.nEpochs - 1 →
    (epochFold cfg n).exports = [] ∧ (epochFold cfg n).trainIters = 0 ∧
    (epochFold cfg n).valIters = 0
  | 0, _ => ⟨rfl, rfl, rfl⟩
  | n + 1, h => by
      have hne : ¬ n = cfg.nEpochs - 1 := by omega
      have ih := epochFold_exports_prefinal cfg n (by omega)
      have hp := processEpoch_exports_nonfinal cfg (cfg.noise 0) n (epochFold cfg n) hne
      rw [epochFold]
      exact ⟨hp.1.trans ih.1, hp.2.1.trans ih.2.1, hp.2.2.trans ih.2.2⟩

/-- Every event of a split export stream carries the split, the epoch it was
written in, and the two filenames derived with `{index:03d}` padding from
its numeric index. -/
theorem mem_splitExports (sp : Split) (bSize ep : Nat) :
    ∀ (l : List Nat) (t : Nat) (ev : ExportEvent), ev ∈ splitExports sp bSize t ep l →
      ev.split = sp ∧ ev.epoch = ep ∧ ev.fileGen = genFileName ev.index ∧
      ev.fileReal = realFileName ev.index
  | [], _, ev, h => absurd h (List.not_mem_nil ev)
  | b :: rest, t, ev, h => by
      rw [splitExports] at h
      rcases List.mem_append.mp h with h | h
      · simp only [exportBatch, List.mem_map] at h
        obtain ⟨i, hi, rfl⟩ := h
        exact ⟨rfl, rfl, rfl, rfl⟩
      · exact mem_splitExports sp bSize ep rest (t + 1) ev h

/-- Claim C8: image pairs are written only during the final epoch, and in it
the two splits produce exactly their export streams — for each split, batch
number `t` (counted by that split iteration counter from 0) with `b` records
writes the pairs with indices `t * batch_size + i` for `i < b`, under the
filenames `{index:03d}_gen.jpg` and `{index:03d}_real.jpg` (lines 284-290
and 303-309). -/
theorem exports_only_final_epoch_with_indexed_filenames (cfg : Config)
    (hE : 0 < cfg.nEpochs) :
    (trainingState cfg).exports =
      splitExports Split.train cfg.batchSize 0 (cfg.nEpochs - 1) cfg.trainSizes ++
      splitExports Split.val cfg.batchSize 0 (cfg.nEpochs - 1) cfg.valSizes ∧
    ∀ ev ∈ (trainingState cfg).exports,
      ev.epoch = cfg.nEpochs - 1 ∧ ev.fileGen = genFileName ev.index ∧
      ev.fileReal = realFileName ev.index := by
  obtain ⟨m, hm⟩ : ∃ m, cfg.nEpochs = m + 1 := ⟨cfg.nEpochs - 1, by omega⟩
  have hfin : m = cfg.nEpochs - 1 := by omega
  have ih := epochFold_exports_prefinal cfg m (by omega)
  have ht := runTrainBatches_exports_final cfg (cfg.noise 0) m hfin cfg.trainSizes 0
    (epochFold cfg m, ⟨0, 0, 0, 0, 0, 0⟩)
  have hv := runValBatches_exports_final cfg (cfg.noise 0) m hfin cfg.valSizes 0
    (appendTrainAvgs (runTrainBatches cfg (cfg.noise 0) m 0 cfg.trainSizes
      (epochFold cfg m, ⟨0, 0, 0, 0, 0, 0⟩)))
  have hchar : (trainingState cfg).exports =
      splitExports Split.train cfg.batchSize 0 m cfg.trainSizes ++
      splitExports Split.val cfg.batchSize 0 m cfg.valSizes := by
    unfold trainingState
    rw [hm, epochFold]
    unfold processEpoch
    rw [appendValAvgs_exports, hv.1, appendTrainAvgs_exports, appendTrainAvgs_valIters,
      ht.1, ht.2.2]
    have hpe : (epochFold cfg m, (⟨0, 0, 0, 0, 0, 0⟩ : EpochAcc)).1.exports =
        ([] : List ExportEvent) := ih.1
    have hpt : (epochFold cfg m, (⟨0, 0, 0, 0, 0, 0⟩ : EpochAcc)).1.trainIters = 0 := ih.2.1
    have hpv : (epochFold cfg m, (⟨0, 0, 0, 0, 0, 0⟩ : EpochAcc)).1.valIters = 0 := ih.2.2
    rw [hpe, hpt, hpv]
    simp
  refine ⟨?_, ?_⟩
  · rw [hchar, hfin]
  · intro ev hev
    rw [hchar] at hev
    rcases List.mem_append.mp hev with h | h
    · obtain ⟨-, h2, h3, h4⟩ := mem_splitExports Split.train cfg.batchSize m cfg.trainSizes 0 ev h
      exact ⟨h2.trans (congrArg (fun x => x) hfin), h3, h4⟩
    · obtain ⟨-, h2, h3, h4⟩ := mem_splitExports Split.val cfg.batchSize m cfg.valSizes 0 ev h
      exact ⟨h2.trans (congrArg (fun x => x) hfin), h3, h4⟩

/-- Witness for C8: one epoch, configured batch size 2, train batches of 2
and 1 records, one validation batch of 1 record. -/
theorem exports_only_final_epoch_witness :
    0 < cfgExportDemo.nEpochs ∧
    ((trainingState cfgExportDemo).exports =
      splitExports Split.train cfgExportDemo.batchSize 0 (cfgExportDemo.nEpochs - 1)
        cfgExportDemo.trainSizes ++
      splitExports Split.val cfgExportDemo.batchSize 0 (cfgExportDemo.nEpochs - 1)
        cfgExportDemo.valSizes ∧
    ∀ ev ∈ (trainingState cfgExportDemo).exports,
      ev.epoch = cfgExportDemo.nEpochs - 1 ∧ ev.fileGen = genFileName ev.index ∧
      ev.fileReal = realFileName ev.index) :=
  ⟨by decide, exports_only_final_epoch_with_indexed_filenames cfgExportDemo (by decide)⟩

/-- Every index in a split export stream started at counter `t` is at least
`t * batch_size`. -/
theorem splitExports_index_lowerBound (sp : Split) (bSize ep : Nat) :
    ∀ (l : List Nat) (t : Nat) (ev : ExportEvent), ev ∈ splitExports sp bSize t ep l →
      t * bSize ≤ ev.index
  | [], _, ev, h => absurd h (List.not_mem_nil ev)
  | b :: rest, t, ev, h => by
      rw [splitExports] at h
      rcases List.mem_append.mp h with h | h
      · simp only [exportBatch, List.mem_map] at h
        obtain ⟨i, hi, rfl⟩ := h
        exact Nat.le_add_right _ _
      · have hrec := splitExports_index_lowerBound sp bSize ep rest (t + 1) ev h
        calc t * bSize ≤ (t + 1) * bSize := Nat.mul_le_mul_right bSize (Nat.le_succ t)
          _ ≤ ev.index := hrec

/-- When every batch holds at most `batch_size` records, the numeric
filename indices of a split export stream are pairwise distinct: batch `t`
occupies `[t * batch_size, t * batch_size + b)`, strictly below the range of
every later batch. -/
theorem splitExports_indices_nodup (sp : Split) (bSize ep : Nat) :
    ∀ (l : List Nat) (t : Nat), (∀ b ∈ l, b ≤ bSize) →
      ((splitExports sp bSize t ep l).map ExportEvent.index).Nodup
  | [], _, _ => by simp [splitExports]
  | b :: rest, t, h => by
      rw [splitExports, List.map_append, List.nodup_append]
      refine ⟨?_, ?_, ?_⟩
      · simp only [exportBatch, List.map_map]
        refine List.Nodup.map ?_ (List.nodup_range b)
        intro a₁ a₂ hEq
        simpa using hEq
      · exact splitExports_indices_nodup sp bSize ep rest (t + 1)
          (fun x hx => h x (List.mem_cons_of_mem b hx))
      · intro x hx hx'
        simp only [exportBatch, List.map_map, List.mem_map, Function.comp, List.mem_range] at hx
        obtain ⟨i, hi, hxi⟩ := hx
        obtain ⟨ev, hev, hevx⟩ := List.mem_map.mp hx'
        have hlb := splitExports_index_lowerBound sp bSize ep rest (t + 1) ev hev
        rw [hevx] at hlb
        have hib : i < bSize := lt_of_lt_of_le hi (h b (List.mem_cons_self b rest))
        have hxlt : x < (t + 1) * bSize := by
          rw [← hxi, Nat.succ_mul]
          exact Nat.add_lt_add_left hib _
        exact absurd hlb (not_le_of_lt hxlt)

/-- Claim C10: within a split export directory the final-epoch filename
indices `t * batch_size + i` are pairwise distinct across all batches, as
long as every batch holds at most `batch_size` records — a smaller final
batch leaves a gap but never a collision. -/
theorem export_filename_indices_pairwise_distinct (sp : Split) (bSize epoch : Nat)
    (sizes : List Nat) (h : ∀ b ∈ sizes, b ≤ bSize) :
    ((splitExports sp bSize 0 epoch sizes).map ExportEvent.index).Nodup :=
  splitExports_indices_nodup sp bSize epoch sizes 0 h

/-- Witness for C10: configured batch size 16 with two full batches and a
final short batch of 7 records. -/
theorem export_filename_indices_pairwise_distinct_witness :
    (∀ b ∈ [16, 16, 7], b ≤ 16) ∧
    ((splitExports Split.train 16 0 0 [16, 16, 7]).map ExportEvent.index).Nodup :=
  ⟨by decide,
   export_filename_indices_pairwise_distinct Split.train 16 0 [16, 16, 7] (by decide)⟩

/-- Claim C9, counterexample: with encoder latent width 64 and a `dI` width
of 300 (total 364, not the configured 448), the `torch.cat` of line 221
succeeds — concatenation along `dim=1` checks only the batch dimension, not
the target width — and the fatal shape error is raised one step later, by
the `torch.reshape` of lines 222-223.  So the abort is real, but it is not
raised at the latent-concatenation step the claim names. -/
theorem latent_mismatch_passes_concatenation :
    64 + 300 ≠ 448 ∧
    catDim1 (normalizeShape ⟨16, 64⟩) ⟨16, 300⟩ = some ⟨16, 364⟩ ∧
    latentPipeline 16 64 300 448 ≠ LatentOutcome.catFail ∧
    latentPipeline 16 64 300 448 = LatentOutcome.reshapeFail := by
  decide

/-- Claim C9, amended: for every non-empty batch whose encoder latent width
plus `dI` width differs from the configured total latent width, the run
aborts with a fatal shape error at the reshape of the concatenated latent to
the generator input layout (lines 222-223), the step immediately after the
concatenation; the pipeline never silently truncates or returns a shaped
input. -/
theorem latent_mismatch_fails_at_reshape (b ld dd total : Nat)
    (hb : 0 < b) (hne : ld + dd ≠ total) :
    latentPipeline b ld dd total = LatentOutcome.reshapeFail := by
  have hb0 : ¬ b = 0 := by omega
  simp [latentPipeline, catDim1, normalizeShape, reshapeTo4, hne, hb0]

/-- Witness for the amended C9 at the counterexample widths. -/
theorem latent_mismatch_fails_at_reshape_witness :
    0 < 16 ∧ 64 + 300 ≠ 448 ∧
    latentPipeline 16 64 300 448 = LatentOutcome.reshapeFail :=
  ⟨by decide, by decide, latent_mismatch_fails_at_reshape 16 64 300 448 (by decide) (by decide)⟩
